import Mathlib

/-!
Verification of the CSV-to-JSON parser (src/services/csvParser.js).

The development shallowly embeds the parser: strings are lists of
characters, the JavaScript number produced by a successful numeric parse
is modelled exactly as a scaled decimal (an integer mantissa and a power
of ten), and records are ordered association trees.  Fallible steps
return Except values.
-/

/-- Strings are modelled as lists of characters. -/
abbrev Str := List Char

/-- Coerce a Lean string literal to the character-list model. -/
def strL (s : String) : Str := s.data

/-- ASCII whitespace recognised by the JavaScript trim and numeric
coercions (the model restricts the Unicode whitespace set to ASCII;
every input considered here is ASCII). -/
def isWs (c : Char) : Bool :=
  c = ' ' || c = '\t' || c = '\n' || c = '\r' || c = '\x0b' || c = '\x0c'

/-- Drop leading whitespace, as the implicit trim at the start of
Number, parseFloat and parseInt coercions. -/
def dropWs (s : Str) : Str := s.dropWhile isWs

/-- Model of String.prototype.trim: drop leading and trailing
whitespace. -/
def jsTrim (s : Str) : Str := ((s.dropWhile isWs).reverse.dropWhile isWs).reverse

/-- Model of String.prototype.split with a one-character separator:
always returns at least one (possibly empty) piece. -/
def splitOnC (sep : Char) : Str → List Str
  | [] => [[]]
  | c :: rest =>
    match splitOnC sep rest with
    | [] => [[]]
    | l :: ls => if c = sep then [] :: l :: ls else (c :: l) :: ls

/-- Scanner state of parseCSVLine: remaining input, the inQuotes flag
and the accumulator, translated from the character loop of the source
(quote handling first, then comma-outside-quotes, then default append;
the final accumulator is always pushed, trimmed). -/
def parseCSVLineAux : Str → Bool → Str → List Str
  | [], _, current => [jsTrim current]
  | [c], inQuotes, current =>
    if c = '"' then [jsTrim current]
    else if c = ',' && !inQuotes then [jsTrim current, []]
    else [jsTrim (current ++ [c])]
  | c :: c2 :: rest, inQuotes, current =>
    if c = '"' then
      if inQuotes then
        if c2 = '"' then parseCSVLineAux rest true (current ++ ['"'])
        else parseCSVLineAux (c2 :: rest) false current
      else parseCSVLineAux (c2 :: rest) true current
    else if c = ',' && !inQuotes then jsTrim current :: parseCSVLineAux (c2 :: rest) inQuotes []
    else parseCSVLineAux (c2 :: rest) inQuotes (current ++ [c])

/-- Model of parseCSVLine: tokenize one CSV line into trimmed field
strings, honouring quoting. -/
def parseCSVLine (line : Str) : List Str := parseCSVLineAux line false []

/-- A JavaScript number that can arise from a string numeric coercion,
modelled exactly: fin m k denotes the decimal m divided by ten to the k,
and inf, negInf model the two infinities.  The model is exact where the
runtime rounds to binary floating point; all values compared in this
development are small decimals on which the two agree. -/
inductive JsNum where
  | fin : Int → Nat → JsNum
  | inf : JsNum
  | negInf : JsNum
deriving DecidableEq

/-- Rational denotation of the finite scaled decimal fin m k. -/
def decRat (m : Int) (k : Nat) : ℚ := m / 10 ^ k

/-- Numeric value of a decimal digit character. -/
def digVal (c : Char) : Nat := c.toNat - 48

/-- Value of a string of decimal digits, most significant first. -/
def digitsVal (ds : Str) : Nat := ds.foldl (fun a c => a * 10 + digVal c) 0

/-- Parse the mantissa part of a decimal literal (digits, optional dot,
optional fraction digits, or dot followed by digits): returns the
digits read as an integer, the number of fraction digits, and the rest
of the input. -/
def parseMantissa (s : Str) : Option (Nat × Nat × Str) :=
  let d1 := s.takeWhile Char.isDigit
  let r1 := s.dropWhile Char.isDigit
  if d1 ≠ [] then
    match r1 with
    | '.' :: r2 =>
      some (digitsVal (d1 ++ r2.takeWhile Char.isDigit),
            (r2.takeWhile Char.isDigit).length, r2.dropWhile Char.isDigit)
    | _ => some (digitsVal d1, 0, r1)
  else
    match s with
    | '.' :: r2 =>
      if r2.takeWhile Char.isDigit ≠ [] then
        some (digitsVal (r2.takeWhile Char.isDigit),
              (r2.takeWhile Char.isDigit).length, r2.dropWhile Char.isDigit)
      else none
    | _ => none

/-- Read the digits of an exponent with the given sign; fails when no
digit is present (in which case the exponent marker is not consumed by
the caller). -/
def parseExpDigits (sign : Int) (s : Str) : Option (Int × Str) :=
  let d := s.takeWhile Char.isDigit
  if d.isEmpty then none else some (sign * (digitsVal d : Int), s.dropWhile Char.isDigit)

/-- Parse an exponent part: e or E, optional sign, at least one digit. -/
def parseExpPart : Str → Option (Int × Str)
  | c :: c2 :: rest =>
    if c = 'e' || c = 'E' then
      if c2 = '+' then parseExpDigits 1 rest
      else if c2 = '-' then parseExpDigits (-1) rest
      else parseExpDigits 1 (c2 :: rest)
    else none
  | _ => none

/-- Apply a decimal exponent to a scaled decimal. -/
def applyExp (m : Nat) (k : Nat) (e : Int) : Int × Nat :=
  if 0 ≤ e then ((m : Int) * 10 ^ e.toNat, k) else ((m : Int), k + (-e).toNat)

/-- Parse an unsigned decimal literal with optional exponent as the
longest valid prefix; the exponent is taken only when well formed. -/
def parseDecNoSign (s : Str) : Option ((Int × Nat) × Str) :=
  match parseMantissa s with
  | some (m, k, r) =>
    match parseExpPart r with
    | some (e, r2) => some (applyExp m k e, r2)
    | none => some (((m : Int), k), r)
  | none => none

/-- The characters of the literal Infinity. -/
def infStr : Str := strL "Infinity"

/-- Parse an unsigned StrDecimalLiteral (Infinity or a decimal literal)
as a prefix of the input. -/
def parseUnsignedF (s : Str) : Option (JsNum × Str) :=
  if infStr.isPrefixOf s then some (.inf, s.drop 8)
  else
    match parseDecNoSign s with
    | some ((m, k), r) => some (.fin m k, r)
    | none => none

/-- Negation of a JavaScript number. -/
def JsNum.neg : JsNum → JsNum
  | .fin m k => .fin (-m) k
  | .inf => .negInf
  | .negInf => .inf

/-- Parse a signed StrDecimalLiteral as a prefix of the input. -/
def parseSignedF : Str → Option (JsNum × Str)
  | '+' :: r => parseUnsignedF r
  | '-' :: r =>
    match parseUnsignedF r with
    | some (v, rem) => some (v.neg, rem)
    | none => none
  | s => parseUnsignedF s

/-- Model of parseFloat: skip leading whitespace, then read the longest
valid decimal-literal prefix; none models NaN. -/
def jsParseFloat (s : Str) : Option JsNum :=
  match parseSignedF (dropWs s) with
  | some (v, _) => some v
  | none => none

/-- Hexadecimal digit test. -/
def isHexDig (c : Char) : Bool :=
  Char.isDigit c || ('a' ≤ c && c ≤ 'f') || ('A' ≤ c && c ≤ 'F')

/-- Octal digit test. -/
def isOctDig (c : Char) : Bool := '0' ≤ c && c ≤ '7'

/-- Binary digit test. -/
def isBinDig (c : Char) : Bool := c = '0' || c = '1'

/-- Numeric value of a hexadecimal digit character. -/
def hexVal (c : Char) : Nat :=
  if Char.isDigit c then digVal c
  else if 'a' ≤ c && c ≤ 'f' then c.toNat - 87
  else c.toNat - 55

/-- Value of a digit string in the given radix. -/
def radixVal (r : Nat) (ds : Str) : Nat := ds.foldl (fun a c => a * r + hexVal c) 0

/-- Full-string hexadecimal, octal or binary integer literal (0x, 0o,
0b forms, no sign), as accepted by the Number coercion. -/
def parseNonDecimal : Str → Option Int
  | '0' :: c :: rest =>
    if (c = 'x' || c = 'X') && !rest.isEmpty && rest.all isHexDig then
      some (radixVal 16 rest)
    else if (c = 'o' || c = 'O') && !rest.isEmpty && rest.all isOctDig then
      some (radixVal 8 rest)
    else if (c = 'b' || c = 'B') && !rest.isEmpty && rest.all isBinDig then
      some (radixVal 2 rest)
    else none
  | _ => none

/-- Model of the Number string coercion, as invoked by isNaN on a
string: trim, empty means zero, otherwise the whole string must be a
hexadecimal, octal or binary literal or a signed decimal literal or
Infinity form; none models NaN. -/
def jsNumber (s : Str) : Option JsNum :=
  let t := jsTrim s
  if t.isEmpty then some (.fin 0 0)
  else
    match parseNonDecimal t with
    | some n => some (.fin n 0)
    | none =>
      match parseSignedF t with
      | some (v, []) => some v
      | _ => none

/-- Read an integer literal for parseInt after the sign: a 0x or 0X
prefix switches to hexadecimal, otherwise the longest decimal digit
prefix is read; fails when no digit is present. -/
def parseIntDigits (sign : Int) : Str → Option Int
  | '0' :: c :: rest =>
    if c = 'x' || c = 'X' then
      let d := rest.takeWhile isHexDig
      if d.isEmpty then none else some (sign * (radixVal 16 d : Int))
    else
      some (sign * (digitsVal (('0' :: c :: rest).takeWhile Char.isDigit) : Int))
  | s =>
    let d := s.takeWhile Char.isDigit
    if d.isEmpty then none else some (sign * (digitsVal d : Int))

/-- Model of parseInt with no radix argument: skip leading whitespace,
optional sign, then hexadecimal after 0x or the longest decimal digit
prefix; none models NaN. -/
def jsParseInt (s : Str) : Option Int :=
  match dropWs s with
  | '+' :: r => parseIntDigits 1 r
  | '-' :: r => parseIntDigits (-1) r
  | r => parseIntDigits 1 r

/-- Loose equality of the integer result of parseInt against the Number
coercion of the same string, as in the comparison deciding integer
versus float. -/
def JsNum.eqInt : JsNum → Int → Bool
  | .fin m k, n => m == n * (10 : Int) ^ k
  | _, _ => false

/-- A typed CSV cell value: integer, number (float), boolean or
string. -/
inductive Value where
  | int : Int → Value
  | num : JsNum → Value
  | bool : Bool → Value
  | str : Str → Value
deriving DecidableEq

/-- The quote-unwrapping step of parseValue: when the string starts and
ends with a double quote, or starts and ends with a single quote, one
character is removed from each end (a one-character quote string meets
the condition and becomes empty, as with slice in the source). -/
def unwrapQuotes (v : Str) : Str :=
  if (v.head? = some '"' ∧ v.getLast? = some '"') ∨
      (v.head? = some '\'' ∧ v.getLast? = some '\'') then
    (v.drop 1).dropLast
  else v

/-- ASCII lower-casing of one character (model of toLowerCase,
restricted to ASCII). -/
def asciiLowerChar (c : Char) : Char :=
  if 'A' ≤ c && c ≤ 'Z' then Char.ofNat (c.toNat + 32) else c

/-- ASCII lower-casing of a string. -/
def asciiLower (s : Str) : Str := s.map asciiLowerChar

/-- Model of parseValue: unwrap quotes; when both the Number coercion
and parseFloat succeed, return parseInt's integer when it is loosely
equal to the Number coercion, else the parseFloat number; otherwise
check the boolean words and fall back to the string itself. -/
def parseValue (value : Str) : Value :=
  let v := unwrapQuotes value
  match jsNumber v, jsParseFloat v with
  | some nv, some f =>
    (match jsParseInt v with
     | some n => if nv.eqInt n then .int n else .num f
     | none => .num f)
  | _, _ =>
    if asciiLower v = strL "true" then .bool true
    else if asciiLower v = strL "false" then .bool false
    else .str v

mutual
/-- A JSON-like value inside a structured record: a typed primitive or
a nested object. -/
inductive JsValue where
  | prim : Value → JsValue
  | obj : JsObj → JsValue

/-- A JavaScript object, modelled as its ordered own-property list. -/
inductive JsObj where
  | nil : JsObj
  | cons : Str → JsValue → JsObj → JsObj
end

/-- Property read on an object. -/
def JsObj.lookup : JsObj → Str → Option JsValue
  | .nil, _ => none
  | .cons k v rest, key => if k = key then some v else rest.lookup key

/-- Property write on an object: an existing key is overwritten in
place, a new key is appended, matching property insertion order. -/
def JsObj.setKey : JsObj → Str → JsValue → JsObj
  | .nil, key, v => .cons key v .nil
  | .cons k v0 rest, key, v =>
    if k = key then .cons k v rest else .cons k v0 (rest.setKey key v)

/-- Names inherited by every plain object from the Object prototype.
The in operator of the runtime sees these inherited properties, so a
header path segment carrying one of these names behaves specially
there; the record model reads own properties only, and the theorems
quantifying over arbitrary paths assume segments avoid these names. -/
def protoNames : List Str :=
  [strL "__proto__", strL "constructor", strL "toString",
   strL "toLocaleString", strL "valueOf", strL "hasOwnProperty",
   strL "isPrototypeOf", strL "propertyIsEnumerable",
   strL "__defineGetter__", strL "__defineSetter__",
   strL "__lookupGetter__", strL "__lookupSetter__"]

/-- Model of setNestedProperty on the remaining path segments.  The
source walks the segments, creating an empty object at a missing key
and descending otherwise.  Descending into a primitive mirrors the
sloppy-mode runtime: when only the final segment remains the property
write on the primitive is silently discarded (the object is returned
unchanged), and with two or more segments remaining the next iteration
applies the in operator to a primitive, which throws a TypeError,
modelled as the error case.  Key lookup models own properties; paths
with segments named in protoNames exercise inherited-property
semantics outside this model. -/
def JsObj.setNested : JsObj → List Str → Value → Except Unit JsObj
  | cur, [], _ => .ok cur
  | cur, [k], v => .ok (cur.setKey k (.prim v))
  | cur, k :: k2 :: rest, v =>
    match cur.lookup k with
    | some (.prim _) => if (k2 :: rest).length = 1 then .ok cur else .error ()
    | some (.obj o) =>
      match o.setNested (k2 :: rest) v with
      | .ok o2 => .ok (cur.setKey k (.obj o2))
      | .error e => .error e
    | none =>
      match JsObj.nil.setNested (k2 :: rest) v with
      | .ok o2 => .ok (cur.setKey k (.obj o2))
      | .error e => .error e

/-- Model of the loop body of createNestedObject over the header/value
pairs: both strings are trimmed, a pair with an empty trimmed key or
empty trimmed value is skipped, and otherwise the typed value is set at
the dot-split path. -/
def buildRecord : List (Str × Str) → JsObj → Except Unit JsObj
  | [], acc => .ok acc
  | (h, v) :: rest, acc =>
    let key := jsTrim h
    let value := jsTrim v
    if key ≠ [] ∧ value ≠ [] then
      match acc.setNested (splitOnC '.' key) (parseValue value) with
      | .ok acc2 => buildRecord rest acc2
      | .error e => .error e
    else buildRecord rest acc

/-- Model of createNestedObject.  The source iterates the header index
range and reads the value at the same index; the two call sites
guarantee equal lengths, so the iteration is the zip of the two
lists. -/
def createNestedObject (headers vals : List Str) : Except Unit JsObj :=
  buildRecord (headers.zip vals) .nil

/-- The three errors parseCSV can raise: too few non-empty lines,
missing mandatory header fields (with the full missing list), and the
TypeError escaping from setNestedProperty. -/
inductive ParseError where
  | formatError : ParseError
  | validationError : List Str → ParseError
  | typeError : ParseError
deriving DecidableEq

/-- The fixed mandatory header paths. -/
def mandatoryFields : List Str :=
  [strL "name.firstName", strL "name.lastName", strL "age"]

/-- Model of the filter in validateMandatoryFields: the mandatory
paths absent from the header list, in mandatory order. -/
def missingFields (headers : List Str) : List Str :=
  mandatoryFields.filter (fun f => !headers.contains f)

/-- Model of the data-row loop of parseCSV: tokenize each line, skip
it when its field count differs from the header count, otherwise build
its record; a TypeError from record building aborts the whole loop. -/
def parseRows (headers : List Str) : List Str → Except Unit (List JsObj)
  | [] => .ok []
  | r :: rest =>
    if (parseCSVLine r).length ≠ headers.length then parseRows headers rest
    else
      match createNestedObject headers (parseCSVLine r) with
      | .ok o =>
        match parseRows headers rest with
        | .ok os => .ok (o :: os)
        | .error e => .error e
      | .error e => .error e

/-- The non-empty lines of the input: split on newline, keep lines that
are non-empty after trimming (the lines themselves are kept
untrimmed). -/
def nonEmptyLines (content : Str) : List Str :=
  (splitOnC '\n' content).filter (fun l => !(jsTrim l).isEmpty)

/-- Model of parseCSV: fewer than two non-empty lines is a
FormatError; the first line is tokenized into the header and the
mandatory fields are checked once, a non-empty missing list being a
ValidationError; then the data rows are processed in order. -/
def parseCSV (content : Str) : Except ParseError (List JsObj) :=
  match nonEmptyLines content with
  | [] => .error .formatError
  | [_] => .error .formatError
  | hd :: rest =>
    match missingFields (parseCSVLine hd) with
    | [] =>
      match parseRows (parseCSVLine hd) rest with
      | .ok recs => .ok recs
      | .error _ => .error .typeError
    | m => .error (.validationError m)

mutual
/-- Whether a value contains an empty-string key at any depth. -/
def JsValue.hasEmptyKey : JsValue → Bool
  | .prim _ => false
  | .obj o => o.hasEmptyKey

/-- Whether an object contains an empty-string key at any depth. -/
def JsObj.hasEmptyKey : JsObj → Bool
  | .nil => false
  | .cons k v rest => k.isEmpty || v.hasEmptyKey || rest.hasEmptyKey
end

/-- Read the value stored at a non-empty path of keys, descending
through nested objects. -/
def JsObj.lookupPath : JsObj → List Str → Option JsValue
  | _, [] => none
  | o, [k] => o.lookup k
  | o, k :: k2 :: rest =>
    match o.lookup k with
    | some (.obj o2) => o2.lookupPath (k2 :: rest)
    | _ => none

/-- Whether a typed value is numeric (integer or float). -/
def Value.isNumeric : Value → Bool
  | .int _ => true
  | .num _ => true
  | .bool _ => false
  | .str _ => false

/-- Helper for the spec-side grammar: the whole string is one decimal
literal (digits, optional decimal point, optional exponent). -/
def fpLitCore (s : Str) : Bool :=
  match parseDecNoSign s with
  | some (_, []) => true
  | _ => false

/-- Modelled from the spec: a string that fully matches a standard
floating-point literal grammar, namely optional sign, digits, optional
decimal point, optional exponent.  This is the boundary the spec fixes
for the numeric branch. -/
def specFpLiteral : Str → Bool
  | '+' :: r => fpLitCore r
  | '-' :: r => fpLitCore r
  | s => fpLitCore s

/-- The three Infinity forms accepted by the Number coercion. -/
def infinityLit (s : Str) : Bool :=
  s == strL "Infinity" || s == strL "+Infinity" || s == strL "-Infinity"

/-- Modelled from the spec, for the amended quote-unwrapping claim:
the first character equals the last character and that character is a
double or single quote, with no minimum-length requirement. -/
def stripCond (v : Str) : Bool :=
  !v.isEmpty && v.head? == v.getLast? &&
    (v.head? == some '"' || v.head? == some '\'')

/-- Claim C6: tokenizing the line foo,"bar,baz",qux yields exactly the
three fields foo and bar,baz and qux: the quoted comma does not end a
field, the outer commas do, and the wrapping quote characters are not
in the output. -/
theorem claim_C6_quoted_comma :
    parseCSVLine (strL "foo,\"bar,baz\",qux") =
      [strL "foo", strL "bar,baz", strL "qux"] := by
  rfl

/-- Claim C7: tokenizing the line that is he said ""hi"" wrapped in
quotes yields the single field containing he said "hi": each doubled
quote inside quotes becomes one literal quote, and a lone quote toggles
the quote state. -/
theorem claim_C7_escaped_quote :
    parseCSVLine (strL "\"he said \"\"hi\"\"\"") = [strL "he said \"hi\""] := by
  rfl

/-- Claim C8: typeValue maps 35 to the integer 35, 35.5 to the float
thirty-five and a half, and 035 to the integer 35: a numeric string
whose integer parse is loosely equal to its numeric coercion is an
integer, otherwise a float, and a leading zero does not disqualify the
integer branch. -/
theorem claim_C8_int_float_boundary :
    parseValue (strL "35") = Value.int 35 ∧
    parseValue (strL "35.5") = Value.num (.fin 355 1) ∧
    decRat 355 1 = (71 : ℚ) / 2 ∧
    parseValue (strL "035") = Value.int 35 := by
  refine ⟨rfl, rfl, ?_, rfl⟩
  norm_num [decRat]

/-- Counterexample to claim C9: the one-character string consisting of
a double quote meets the start and end tests of the source, so it is
stripped to the empty string instead of being typed with its quote
intact as the claim requires for strings of length below two. -/
theorem claim_C9_cex :
    parseValue (strL "\"") = Value.str [] ∧
    Value.str [] ≠ Value.str (strL "\"") := by
  exact ⟨rfl, by decide⟩

/-- Claim C9 as amended: typeValue strips one quote layer exactly when
the first character equals the last character and is a double or single
quote, with no minimum length: a one-character quote string is its own
first and last character, so it is stripped and becomes empty. -/
theorem claim_C9_amended (v : Str) :
    unwrapQuotes v = if stripCond v then (v.drop 1).dropLast else v := by
  have h : ((v.head? = some '"' ∧ v.getLast? = some '"') ∨
      (v.head? = some '\'' ∧ v.getLast? = some '\'')) ↔ stripCond v = true := by
    cases v with
    | nil => simp [stripCond]
    | cons c rest =>
      simp only [stripCond, List.isEmpty_cons, Bool.not_false, Bool.and_eq_true,
        Bool.or_eq_true, beq_iff_eq, true_and, List.head?_cons, Option.some.injEq]
      constructor
      · rintro (⟨h1, h2⟩ | ⟨h1, h2⟩) <;> subst h1 <;>
          exact ⟨by rw [h2], by simp⟩
      · rintro ⟨h1, h2 | h2⟩ <;> subst h2
        · exact Or.inl ⟨rfl, h1.symm⟩
        · exact Or.inr ⟨rfl, h1.symm⟩
  unfold unwrapQuotes
  split_ifs with h1 h2 h3
  · rfl
  · exact absurd (h.mp h1) h2
  · exact absurd (h.mpr h3) h1
  · rfl

/-- Counterexample to claim C5: the emitted record for a header path
with an empty middle segment contains an empty-string key, because only
a whole empty trimmed path is skipped, not an empty segment inside a
non-empty path. -/
theorem claim_C5_cex :
    (parseCSV (strL "name.firstName,name.lastName,age,a..b\nx,y,1,2")).map
      (fun rs => rs.any JsObj.hasEmptyKey) = .ok true := by
  rfl

/-- Claim C5 as amended: a pair whose whole trimmed path or whole
trimmed value is empty contributes nothing to the record, so the header
a.b,c with row ,5 yields only the key c; but empty segments inside a
non-empty path are not skipped, so the header a..b with value 1 yields
a record containing an empty-string key. -/
theorem claim_C5_amended :
    (∀ h v rest acc, jsTrim h = [] ∨ jsTrim v = [] →
        buildRecord ((h, v) :: rest) acc = buildRecord rest acc) ∧
    createNestedObject [strL "a.b", strL "c"] [strL "", strL "5"] =
      .ok (.cons (strL "c") (.prim (.int 5)) .nil) ∧
    (createNestedObject [strL "a..b"] [strL "1"]).map JsObj.hasEmptyKey = .ok true := by
  refine ⟨?_, rfl, rfl⟩
  intro h v rest acc hskip
  conv_lhs => rw [buildRecord]
  rcases hskip with h1 | h1 <;> simp [h1]

/-- Witness for the amended claim C5 at a concrete skipped pair: a
header whose trimmed path is empty contributes nothing. -/
theorem claim_C5_witness :
    buildRecord [(strL " ", strL "5")] .nil = buildRecord [] .nil :=
  claim_C5_amended.1 (strL " ") (strL "5") [] .nil (Or.inl (by decide))

/-- Splitting always yields at least one piece. -/
lemma splitOnC_ne_nil (sep : Char) (s : Str) : splitOnC sep s ≠ [] := by
  cases s with
  | nil => simp [splitOnC]
  | cons c rest =>
    unfold splitOnC
    cases h : splitOnC sep rest with
    | nil => simp
    | cons l ls => simp only [h]; split <;> simp

/-- Setting a non-empty path in the empty object succeeds and the
value can be read back along the same path. -/
lemma setNested_nil_ok (keys : List Str) (v : Value) (hk : keys ≠ []) :
    (JsObj.nil.setNested keys v).map (fun o => o.lookupPath keys) =
      Except.ok (some (.prim v)) := by
  induction keys with
  | nil => exact absurd rfl hk
  | cons k rest ih =>
    cases rest with
    | nil =>
      simp [JsObj.setNested, JsObj.setKey, Except.map, JsObj.lookupPath, JsObj.lookup]
    | cons k2 rest2 =>
      have h2 := ih (by simp)
      cases hs : JsObj.nil.setNested (k2 :: rest2) v with
      | error e => rw [hs] at h2; simp [Except.map] at h2
      | ok o2 =>
        rw [hs] at h2
        simp only [Except.map, Except.ok.injEq] at h2
        simp [JsObj.setNested, JsObj.lookup, hs, Except.map, JsObj.setKey,
          JsObj.lookupPath, h2]

/-- Claim C10: a cell whose raw text is two single quotes is not
skipped (the skip test sees the two-character text, before quote
unwrapping), so the emitted record maps the trimmed header path to the
empty string rather than omitting the key. -/
theorem claim_C10_quoted_empty (h : Str) (hne : jsTrim h ≠ [])
    (hproto : ∀ seg ∈ splitOnC '.' (jsTrim h), protoNames.contains seg = false) :
    (createNestedObject [h] [strL "''"]).map
      (fun o => o.lookupPath (splitOnC '.' (jsTrim h))) =
      Except.ok (some (.prim (.str []))) := by
  have hval : parseValue (jsTrim (strL "''")) = .str [] := rfl
  have hkeys := splitOnC_ne_nil '.' (jsTrim h)
  have hmain := setNested_nil_ok (splitOnC '.' (jsTrim h)) (.str []) hkeys
  unfold createNestedObject
  cases hs : JsObj.nil.setNested (splitOnC '.' (jsTrim h)) (Value.str []) with
  | error e => rw [hs] at hmain; simp [Except.map] at hmain
  | ok o =>
    rw [hs] at hmain
    simp only [Except.map, Except.ok.injEq] at hmain
    simp [List.zip, List.zipWith, buildRecord, hne, hval, hs, Except.map, hmain,
      (by decide : jsTrim (strL "''") ≠ [])]

/-- Witness for claim C10: the header note with the cell of two single
quotes yields a record mapping note to the empty string. -/
theorem claim_C10_witness :
    (createNestedObject [strL "note"] [strL "''"]).map
      (fun o => o.lookupPath (splitOnC '.' (jsTrim (strL "note")))) =
      Except.ok (some (.prim (.str []))) :=
  claim_C10_quoted_empty (strL "note") (by decide) (by decide)

/-- Claim C2: with at least two non-empty lines, parse raises a
ValidationError exactly when some mandatory path is missing from the
header, the error carries the whole missing list, and no other
validation error value can be produced; the check is independent of
the data rows. -/
theorem claim_C2_validation (content hd : Str) (rest : List Str)
    (hlines : nonEmptyLines content = hd :: rest) (hne : rest ≠ []) :
    (parseCSV content = .error (.validationError (missingFields (parseCSVLine hd))) ↔
        missingFields (parseCSVLine hd) ≠ []) ∧
    (∀ m, parseCSV content = .error (.validationError m) →
        m = missingFields (parseCSVLine hd)) := by
  cases rest with
  | nil => exact absurd rfl hne
  | cons l2 rest2 =>
    have hred : parseCSV content =
        (match missingFields (parseCSVLine hd) with
         | [] =>
           match parseRows (parseCSVLine hd) (l2 :: rest2) with
           | .ok recs => .ok recs
           | .error _ => .error .typeError
         | m => .error (.validationError m)) := by
      unfold parseCSV
      rw [hlines]
    rw [hred]
    cases hm : missingFields (parseCSVLine hd) with
    | nil =>
      refine ⟨⟨fun hEq => ?_, fun hcon => absurd rfl hcon⟩, fun m hEq => ?_⟩
      · have hEq2 : (match parseRows (parseCSVLine hd) (l2 :: rest2) with
            | Except.ok recs => (Except.ok recs : Except ParseError (List JsObj))
            | Except.error _ => Except.error ParseError.typeError) =
            Except.error (ParseError.validationError []) := hEq
        revert hEq2
        split <;> simp
      · have hEq2 : (match parseRows (parseCSVLine hd) (l2 :: rest2) with
            | Except.ok recs => (Except.ok recs : Except ParseError (List JsObj))
            | Except.error _ => Except.error ParseError.typeError) =
            Except.error (ParseError.validationError m) := hEq
        revert hEq2
        split <;> simp
    | cons f fs =>
      refine ⟨⟨fun _ => by simp, fun _ => rfl⟩, fun m hEq => ?_⟩
      have h3 : (Except.error (ParseError.validationError (f :: fs)) :
          Except ParseError (List JsObj)) = .error (.validationError m) := hEq
      injection h3 with h4
      injection h4 with h5
      exact h5.symm

/-- The whitespace predicate only accepts the six listed characters. -/
lemma ws_cases {c : Char} (h : isWs c = true) :
    c = ' ' ∨ c = '\t' ∨ c = '\n' ∨ c = '\r' ∨ c = '\x0b' ∨ c = '\x0c' := by
  simp only [isWs, Bool.or_eq_true, decide_eq_true_eq] at h
  tauto

/-- Whitespace characters are not decimal digits. -/
lemma ws_not_digit {c : Char} (h : isWs c = true) : c.isDigit = false := by
  rcases ws_cases h with h | h | h | h | h | h <;> rw [h] <;> rfl

/-- A mantissa whose first character is not a digit and not a dot
fails. -/
lemma parseMantissa_cons_not_digit {c : Char} {r : Str}
    (hd : c.isDigit = false) (hdot : c ≠ '.') :
    parseMantissa (c :: r) = none := by
  unfold parseMantissa
  have h1 : (c :: r).takeWhile Char.isDigit = [] := by
    simp [List.takeWhile_cons, hd]
  simp only [h1, ne_eq, not_true_eq_false, if_false]
  split
  · rename_i heq
    injection heq with hx he
    exact absurd hx hdot
  · rfl

/-- A mantissa starting with a dot and then a non-digit fails. -/
lemma parseMantissa_dot_not_digit {c2 : Char} {r2 : Str} (hd2 : c2.isDigit = false) :
    parseMantissa ('.' :: c2 :: r2) = none := by
  unfold parseMantissa
  have h1 : ('.' :: c2 :: r2).takeWhile Char.isDigit = [] := by
    simp [List.takeWhile_cons]
  have h2 : (c2 :: r2).takeWhile Char.isDigit = [] := by
    simp [List.takeWhile_cons, hd2]
  simp [h1, h2]

/-- A mantissa whose first character is a digit succeeds. -/
lemma parseMantissa_isSome_of_digit {c : Char} {r : Str} (h : c.isDigit = true) :
    (parseMantissa (c :: r)).isSome = true := by
  unfold parseMantissa
  have h1 : (c :: r).takeWhile Char.isDigit ≠ [] := by
    simp [List.takeWhile_cons, h]
  simp only [ne_eq, h1, not_false_eq_true, if_true]
  split <;> rfl

/-- A mantissa starting with a dot followed by a digit succeeds. -/
lemma parseMantissa_isSome_dot {c2 : Char} {r2 : Str} (h : c2.isDigit = true) :
    (parseMantissa ('.' :: c2 :: r2)).isSome = true := by
  unfold parseMantissa
  have h1 : ('.' :: c2 :: r2).takeWhile Char.isDigit = [] := by
    simp [List.takeWhile_cons]
  have h2 : (c2 :: r2).takeWhile Char.isDigit ≠ [] := by
    simp [List.takeWhile_cons, h]
  simp [h1, h2]

/-- A successful mantissa starts with a digit, or with a dot followed
by a digit. -/
lemma parseMantissa_isSome_shape {s : Str} (h : (parseMantissa s).isSome = true) :
    (∃ c r, s = c :: r ∧ c.isDigit = true) ∨
    (∃ c r, s = '.' :: c :: r ∧ c.isDigit = true) := by
  cases s with
  | nil => simp [parseMantissa] at h
  | cons c r =>
    by_cases hd : c.isDigit
    · exact Or.inl ⟨c, r, rfl, hd⟩
    · have hd' : c.isDigit = false := by simpa using hd
      by_cases hdot : c = '.'
      · subst hdot
        cases r with
        | nil => rw [show parseMantissa ['.'] = none from rfl] at h; simp at h
        | cons c2 r2 =>
          by_cases hd2 : c2.isDigit
          · exact Or.inr ⟨c2, r2, rfl, hd2⟩
          · rw [parseMantissa_dot_not_digit (by simpa using hd2)] at h
            simp at h
      · rw [parseMantissa_cons_not_digit hd' hdot] at h
        simp at h

/-- The decimal literal parse succeeds exactly when the mantissa parse
succeeds. -/
lemma parseDecNoSign_isSome {s : Str} :
    (parseDecNoSign s).isSome = (parseMantissa s).isSome := by
  unfold parseDecNoSign
  cases h : parseMantissa s with
  | none => rfl
  | some x =>
    obtain ⟨m, k, r⟩ := x
    cases he : parseExpPart r <;> simp [he]

/-- Reduction of the signed parse at a head that is not a sign. -/
lemma parseSignedF_other {c : Char} {r : Str} (h1 : c ≠ '+') (h2 : c ≠ '-') :
    parseSignedF (c :: r) = parseUnsignedF (c :: r) := by
  unfold parseSignedF
  split
  · rename_i heq
    injection heq with hx he
    exact absurd hx h1
  · rename_i heq
    injection heq with hx he
    exact absurd hx h2
  · rfl

/-- The unsigned literal parse succeeds exactly when Infinity is a
prefix or the mantissa parse succeeds. -/
lemma parseUnsignedF_isSome_iff {s : Str} :
    (parseUnsignedF s).isSome = true ↔
      (infStr.isPrefixOf s = true ∨ (parseMantissa s).isSome = true) := by
  unfold parseUnsignedF
  by_cases hp : infStr.isPrefixOf s
  · simp [hp]
  · have hds := parseDecNoSign_isSome (s := s)
    simp only [hp, Bool.false_eq_true, false_or, if_false]
    cases h : parseDecNoSign s with
    | none => rw [h] at hds; simp [← hds]
    | some x => obtain ⟨⟨m, k⟩, r⟩ := x; rw [h] at hds; simp [← hds]

/-- A successful unsigned parse still succeeds on any extension of the
input. -/
lemma parseUnsignedF_ext {s w : Str} (h : (parseUnsignedF s).isSome = true) :
    (parseUnsignedF (s ++ w)).isSome = true := by
  rw [parseUnsignedF_isSome_iff] at h ⊢
  rcases h with h | h
  · left
    rw [List.isPrefixOf_iff_prefix] at h ⊢
    exact h.trans (List.prefix_append s w)
  · rcases parseMantissa_isSome_shape h with ⟨c, r, he, hd⟩ | ⟨c, r, he, hd⟩ <;>
      subst he
    · exact Or.inr (parseMantissa_isSome_of_digit hd)
    · exact Or.inr (parseMantissa_isSome_dot hd)

/-- The signed parse fails on the empty string. -/
lemma parseSignedF_nil : parseSignedF [] = none := rfl

/-- A successful signed parse still succeeds on any extension of the
input. -/
lemma parseSignedF_ext {s w : Str} (h : (parseSignedF s).isSome = true) :
    (parseSignedF (s ++ w)).isSome = true := by
  cases s with
  | nil => rw [parseSignedF_nil] at h; simp at h
  | cons c r =>
    by_cases h1 : c = '+'
    · subst h1
      rw [show parseSignedF ('+' :: r) = parseUnsignedF r from rfl] at h
      rw [List.cons_append,
        show parseSignedF ('+' :: (r ++ w)) = parseUnsignedF (r ++ w) from rfl]
      exact parseUnsignedF_ext h
    · by_cases h2 : c = '-'
      · subst h2
        rw [show parseSignedF ('-' :: r) =
            (match parseUnsignedF r with
             | some (v, rem) => some (v.neg, rem)
             | none => none) from rfl] at h
        rw [List.cons_append,
          show parseSignedF ('-' :: (r ++ w)) =
            (match parseUnsignedF (r ++ w) with
             | some (v, rem) => some (v.neg, rem)
             | none => none) from rfl]
        cases hu : parseUnsignedF r with
        | none => rw [hu] at h; simp at h
        | some x =>
          have hext := parseUnsignedF_ext (s := r) (w := w) (by rw [hu]; rfl)
          cases hu2 : parseUnsignedF (r ++ w) with
          | none => rw [hu2] at hext; simp at hext
          | some y => obtain ⟨v, rem⟩ := y; simp
      · rw [parseSignedF_other h1 h2] at h
        rw [List.cons_append, parseSignedF_other h1 h2]
        exact parseUnsignedF_ext h

/-- A prefix that spans the whole string is the string. -/
lemma eq_of_isPrefixOf_drop {l s : Str} (hp : l.isPrefixOf s = true)
    (hd : s.drop l.length = []) : s = l := by
  rw [List.isPrefixOf_iff_prefix] at hp
  obtain ⟨t, rfl⟩ := hp
  rw [List.drop_left] at hd
  rw [hd, List.append_nil]

/-- The unsigned parse consumes the whole input exactly when the input
is one full decimal literal or the literal Infinity. -/
lemma parseUnsignedF_full_iff {r : Str} :
    (∃ v, parseUnsignedF r = some (v, [])) ↔
      (fpLitCore r = true ∨ r = infStr) := by
  unfold parseUnsignedF
  by_cases hp : infStr.isPrefixOf r
  · have hfp : fpLitCore r = false := by
      have hpre := hp
      rw [List.isPrefixOf_iff_prefix] at hpre
      obtain ⟨t, rfl⟩ := hpre
      rw [show (infStr ++ t : Str) = 'I' :: (strL "nfinity" ++ t) from rfl]
      unfold fpLitCore
      rw [parseDecNoSign]
      rw [parseMantissa_cons_not_digit (by decide) (by decide)]
    simp only [hp, if_true, hfp, Bool.false_eq_true, false_or]
    constructor
    · rintro ⟨v, hv⟩
      injection hv with hv2
      have hdrop : r.drop 8 = [] := congrArg Prod.snd hv2
      exact eq_of_isPrefixOf_drop hp hdrop
    · rintro rfl
      exact ⟨.inf, rfl⟩
  · have hinf : r ≠ infStr := by
      rintro rfl
      exact hp (by rw [List.isPrefixOf_iff_prefix])
    simp only [hp, if_false, hinf, or_false, Bool.false_eq_true]
    unfold fpLitCore
    cases h : parseDecNoSign r with
    | none => simp
    | some x =>
      obtain ⟨⟨m, k⟩, rem⟩ := x
      cases rem <;> simp

/-- The signed parse consumes the whole input exactly when the input
matches the spec floating-point grammar or is an Infinity form. -/
lemma parseSignedF_full_iff {t : Str} :
    (∃ v, parseSignedF t = some (v, [])) ↔
      (specFpLiteral t = true ∨ infinityLit t = true) := by
  cases t with
  | nil =>
    rw [parseSignedF_nil]
    simp only [show specFpLiteral [] = false from rfl,
      show infinityLit [] = false from rfl]
    simp
  | cons c r =>
    by_cases h1 : c = '+'
    · subst h1
      rw [show parseSignedF ('+' :: r) = parseUnsignedF r from rfl,
        parseUnsignedF_full_iff]
      have hsp : specFpLiteral ('+' :: r) = fpLitCore r := rfl
      have hil : infinityLit ('+' :: r) = (r == infStr) := by
        have h0 : infinityLit ('+' :: r) = ((r == infStr) || false) := rfl
        rw [h0, Bool.or_false]
      rw [hsp, hil]
      simp only [beq_iff_eq]
    · by_cases h2 : c = '-'
      · subst h2
        rw [show parseSignedF ('-' :: r) =
            (match parseUnsignedF r with
             | some (v, rem) => some (v.neg, rem)
             | none => none) from rfl]
        have hsp : specFpLiteral ('-' :: r) = fpLitCore r := rfl
        have hil : infinityLit ('-' :: r) = (r == infStr) := rfl
        rw [hsp, hil]
        simp only [beq_iff_eq]
        rw [← parseUnsignedF_full_iff]
        cases hu : parseUnsignedF r with
        | none => simp [hu]
        | some x =>
          obtain ⟨v, rem⟩ := x
          cases rem <;> simp [hu]
      · rw [parseSignedF_other h1 h2]
        have hsp : specFpLiteral (c :: r) = fpLitCore (c :: r) := by
          unfold specFpLiteral
          split
          · rename_i heq
            injection heq with hx he
            exact absurd hx h1
          · rename_i heq
            injection heq with hx he
            exact absurd hx h2
          · rfl
        have hil : infinityLit (c :: r) = ((c :: r : Str) == infStr) := by
          unfold infinityLit
          have hb2 : ((c :: r : Str) == strL "+Infinity") = false := by
            rw [beq_eq_false_iff_ne]
            intro hcon
            rw [show strL "+Infinity" = '+' :: infStr from rfl] at hcon
            injection hcon with hx he
            exact h1 hx
          have hb3 : ((c :: r : Str) == strL "-Infinity") = false := by
            rw [beq_eq_false_iff_ne]
            intro hcon
            rw [show strL "-Infinity" = '-' :: infStr from rfl] at hcon
            injection hcon with hx he
            exact h2 hx
          rw [hb2, hb3]
          rw [show strL "Infinity" = infStr from rfl]
          simp
        rw [hsp, hil]
        simp only [beq_iff_eq]
        exact parseUnsignedF_full_iff

/-- The Number coercion of a string with a non-empty trim succeeds
exactly when the trimmed string is a non-decimal integer literal, a
full floating-point literal, or an Infinity form. -/
lemma jsNumber_isSome_iff {u : Str} (hne : jsTrim u ≠ []) :
    (jsNumber u).isSome = true ↔
      ((parseNonDecimal (jsTrim u)).isSome = true ∨
       specFpLiteral (jsTrim u) = true ∨ infinityLit (jsTrim u) = true) := by
  unfold jsNumber
  have hie : (jsTrim u).isEmpty = false := by
    cases h : jsTrim u with
    | nil => exact absurd h hne
    | cons a b => rfl
  simp only [hie, Bool.false_eq_true, if_false]
  cases hnd : parseNonDecimal (jsTrim u) with
  | some n => simp [hnd]
  | none =>
    simp only [hnd, Option.isSome_none, Bool.false_eq_true, false_or]
    rw [← parseSignedF_full_iff]
    cases hs : parseSignedF (jsTrim u) with
    | none => simp [hs]
    | some p =>
      obtain ⟨v, rem⟩ := p
      cases rem <;> simp [hs]

/-- The signed parse fails on a string of whitespace characters. -/
lemma parseSignedF_allWs {l : Str} (h : ∀ c ∈ l, isWs c = true) :
    parseSignedF l = none := by
  cases l with
  | nil => rfl
  | cons c r =>
    have hc := h c (by simp)
    have h1 : c ≠ '+' := by intro he; rw [he] at hc; exact absurd hc (by decide)
    have h2 : c ≠ '-' := by intro he; rw [he] at hc; exact absurd hc (by decide)
    rw [parseSignedF_other h1 h2]
    unfold parseUnsignedF
    have hI : c ≠ 'I' := by intro he; rw [he] at hc; exact absurd hc (by decide)
    have hp : infStr.isPrefixOf (c :: r) = false := by
      rw [show infStr = 'I' :: strL "nfinity" from rfl]
      rw [Bool.eq_false_iff, ne_eq, List.isPrefixOf_iff_prefix]
      intro hcon
      obtain ⟨t, ht⟩ := hcon
      rw [List.cons_append] at ht
      injection ht with hx he
      exact hI hx.symm
    have hd : c.isDigit = false := ws_not_digit hc
    have hdot : c ≠ '.' := by intro he; rw [he] at hc; exact absurd hc (by decide)
    rw [hp]
    simp [parseDecNoSign, parseMantissa_cons_not_digit hd hdot]

/-- The leading-whitespace drop decomposes as the trim followed by the
trailing whitespace. -/
lemma trim_decomp (u : Str) :
    dropWs u = jsTrim u ++ ((dropWs u).reverse.takeWhile isWs).reverse := by
  have h := List.takeWhile_append_dropWhile isWs (dropWs u).reverse
  have h2 : dropWs u =
      ((dropWs u).reverse.dropWhile isWs).reverse ++
        ((dropWs u).reverse.takeWhile isWs).reverse := by
    conv_lhs => rw [← List.reverse_reverse (dropWs u), ← h]
    rw [List.reverse_append]
  exact h2

/-- Every character of the trailing-whitespace part is whitespace. -/
lemma mem_takeWhile_ws {l : Str} :
    ∀ c ∈ (l.reverse.takeWhile isWs).reverse, isWs c = true := by
  intro c hc
  rw [List.mem_reverse] at hc
  exact List.mem_takeWhile_imp hc

/-- The parseFloat model succeeds exactly when the signed parse of the
input without leading whitespace succeeds. -/
lemma jsParseFloat_isSome_iff {u : Str} :
    (jsParseFloat u).isSome = true ↔ (parseSignedF (dropWs u)).isSome = true := by
  unfold jsParseFloat
  cases h : parseSignedF (dropWs u) with
  | none => simp [h]
  | some p => obtain ⟨v, r⟩ := p; simp [h]

/-- A successful non-decimal literal starts with the digit zero. -/
lemma parseNonDecimal_isSome_shape {t : Str}
    (h : (parseNonDecimal t).isSome = true) :
    ∃ c rest, t = '0' :: c :: rest := by
  unfold parseNonDecimal at h
  split at h
  · rename_i x c2 rest2
    exact ⟨c2, rest2, rfl⟩
  · simp at h

/-- Any of the three grammar forms of the trimmed string makes the
parseFloat model succeed on the original string. -/
lemma parseFloat_of_grammar {u : Str} (hne : jsTrim u ≠ [])
    (hg : (parseNonDecimal (jsTrim u)).isSome = true ∨
          specFpLiteral (jsTrim u) = true ∨ infinityLit (jsTrim u) = true) :
    (jsParseFloat u).isSome = true := by
  rw [jsParseFloat_isSome_iff, trim_decomp u]
  apply parseSignedF_ext
  rcases hg with hg | hg | hg
  · obtain ⟨c, rest, ht⟩ := parseNonDecimal_isSome_shape hg
    rw [ht]
    rw [parseSignedF_other (by decide) (by decide)]
    rw [parseUnsignedF_isSome_iff]
    exact Or.inr (parseMantissa_isSome_of_digit (by decide))
  · obtain ⟨v, hv⟩ := parseSignedF_full_iff.mpr (Or.inl hg)
    rw [hv]
    rfl
  · obtain ⟨v, hv⟩ := parseSignedF_full_iff.mpr (Or.inr hg)
    rw [hv]
    rfl

/-- The typed result is numeric exactly when both the Number coercion
and the parseFloat model succeed on the unwrapped value. -/
lemma parseValue_isNumeric {s : Str} :
    (parseValue s).isNumeric = true ↔
      ((jsNumber (unwrapQuotes s)).isSome = true ∧
       (jsParseFloat (unwrapQuotes s)).isSome = true) := by
  unfold parseValue
  cases hn : jsNumber (unwrapQuotes s) with
  | none =>
    simp only [hn]
    constructor
    · intro h
      exfalso
      revert h
      split_ifs <;> simp [Value.isNumeric]
    · rintro ⟨h, _⟩
      simp at h
  | some nv =>
    cases hf : jsParseFloat (unwrapQuotes s) with
    | none =>
      simp only [hn, hf]
      constructor
      · intro h
        exfalso
        revert h
        split_ifs <;> simp [Value.isNumeric]
      · rintro ⟨_, h⟩
        simp at h
    | some f =>
      simp only [hn, hf]
      constructor
      · intro _
        exact ⟨rfl, rfl⟩
      · intro _
        cases hi : jsParseInt (unwrapQuotes s) with
        | none => simp [hi, Value.isNumeric]
        | some n =>
          by_cases he : nv.eqInt n <;> simp [hi, he, Value.isNumeric]

/-- Counterexample to claim C4: the string 0x10 does not match the
standard floating-point literal grammar, yet typeValue emits the
numeric result 16, because the Number coercion also accepts
hexadecimal literals and parseFloat accepts the digit-zero prefix. -/
theorem claim_C4_cex :
    specFpLiteral (strL "0x10") = false ∧
    parseValue (strL "0x10") = Value.int 16 :=
  ⟨rfl, rfl⟩

/-- Claim C4 as amended: for every string, typeValue emits a numeric
result exactly when, after quote unwrapping and trimming, the value is
non-empty and fully matches the Number grammar: the standard
floating-point literal grammar, an Infinity form, or an unsigned
hexadecimal, octal or binary literal.  Strings with any other leading
or trailing characters fall through to the boolean and string rules. -/
theorem claim_C4_amended (s : Str) :
    (parseValue s).isNumeric = true ↔
      (jsTrim (unwrapQuotes s) ≠ [] ∧
       (specFpLiteral (jsTrim (unwrapQuotes s)) = true ∨
        infinityLit (jsTrim (unwrapQuotes s)) = true ∨
        (parseNonDecimal (jsTrim (unwrapQuotes s))).isSome = true)) := by
  rw [parseValue_isNumeric]
  constructor
  · rintro ⟨hn, hf⟩
    by_cases hne : jsTrim (unwrapQuotes s) = []
    · exfalso
      have hd := trim_decomp (unwrapQuotes s)
      rw [hne, List.nil_append] at hd
      rw [jsParseFloat_isSome_iff, hd,
        parseSignedF_allWs mem_takeWhile_ws] at hf
      simp at hf
    · refine ⟨hne, ?_⟩
      have hg := (jsNumber_isSome_iff hne).mp hn
      tauto
  · rintro ⟨hne, hg⟩
    exact ⟨(jsNumber_isSome_iff hne).mpr (by tauto),
      parseFloat_of_grammar hne (by tauto)⟩

/-- An Except value whose isOk test passes is an ok value. -/
lemma isOk_exists {e : Except Unit JsObj} (h : e.isOk = true) : ∃ o, e = .ok o := by
  cases e with
  | ok o => exact ⟨o, rfl⟩
  | error e => simp [Except.isOk, Except.toBool] at h

/-- When every length-matching row builds its record without a
TypeError, the row loop returns exactly the records of the matching
rows, in input order. -/
lemma parseRows_eq (headers : List Str) (rows : List Str)
    (hok : ∀ r ∈ rows, (parseCSVLine r).length = headers.length →
        (createNestedObject headers (parseCSVLine r)).isOk = true) :
    parseRows headers rows =
      .ok (rows.filterMap (fun r =>
        if (parseCSVLine r).length = headers.length then
          (createNestedObject headers (parseCSVLine r)).toOption
        else none)) := by
  induction rows with
  | nil => rfl
  | cons r rest ih =>
    have ihr := ih (fun x hx hlen => hok x (by simp [hx]) hlen)
    by_cases hlen : (parseCSVLine r).length = headers.length
    · obtain ⟨o, ho⟩ := isOk_exists (hok r (by simp) hlen)
      rw [parseRows]
      simp [hlen, ho, ihr, List.filterMap_cons, Except.toOption]
    · rw [parseRows]
      simp [hlen, ihr, List.filterMap_cons]

/-- The number of records built equals the number of rows minus the
number of rows with a mismatching field count. -/
lemma filterMap_length_eq (headers : List Str) (rows : List Str)
    (hok : ∀ r ∈ rows, (parseCSVLine r).length = headers.length →
        (createNestedObject headers (parseCSVLine r)).isOk = true) :
    (rows.filterMap (fun r =>
        if (parseCSVLine r).length = headers.length then
          (createNestedObject headers (parseCSVLine r)).toOption
        else none)).length =
      rows.length -
        (rows.filter (fun r => (parseCSVLine r).length != headers.length)).length := by
  induction rows with
  | nil => rfl
  | cons r rest ih =>
    have ihr := ih (fun x hx hlen => hok x (by simp [hx]) hlen)
    have hle := List.length_filter_le
      (fun r => (parseCSVLine r).length != headers.length) rest
    by_cases hlen : (parseCSVLine r).length = headers.length
    · obtain ⟨o, ho⟩ := isOk_exists (hok r (by simp) hlen)
      have hto : (createNestedObject headers (parseCSVLine r)).toOption = some o := by
        rw [ho]; rfl
      simp [List.filterMap_cons, List.filter_cons, hlen, hto, ihr]
      omega
    · simp [List.filterMap_cons, List.filter_cons, hlen, ihr]

/-- Counterexample to claim C1: a header with the mandatory fields and
one data row whose field count matches the header count, yet parse
returns no records at all: the row writes a scalar at path a and then
assigns through it at path a.b.c, which applies the in operator to a
primitive and throws a TypeError that aborts the parse. -/
theorem claim_C1_cex :
    (parseCSVLine (strL "x,y,1,1,2")).length =
        (parseCSVLine (strL "name.firstName,name.lastName,age,a,a.b.c")).length ∧
    missingFields (parseCSVLine (strL "name.firstName,name.lastName,age,a,a.b.c")) = [] ∧
    parseCSV (strL "name.firstName,name.lastName,age,a,a.b.c\nx,y,1,1,2") =
      .error .typeError :=
  ⟨rfl, rfl, rfl⟩

/-- Claim C1 as amended: when the header has the mandatory fields,
there is at least one data row, header path segments avoid the
Object-prototype names, and no length-matching row throws a TypeError
while building its record (assigning a nested path through an
already-set scalar), parse returns one record per length-matching row
in input order and skips every mismatching row, so the result length is
the row count minus the mismatch count. -/
theorem claim_C1_amended (content hd : Str) (rest : List Str)
    (hlines : nonEmptyLines content = hd :: rest) (hne : rest ≠ [])
    (hvalid : missingFields (parseCSVLine hd) = [])
    (hproto : ∀ p ∈ parseCSVLine hd, ∀ seg ∈ splitOnC '.' (jsTrim p),
        protoNames.contains seg = false)
    (hok : ∀ r ∈ rest, (parseCSVLine r).length = (parseCSVLine hd).length →
        (createNestedObject (parseCSVLine hd) (parseCSVLine r)).isOk = true) :
    parseCSV content =
      .ok (rest.filterMap (fun r =>
        if (parseCSVLine r).length = (parseCSVLine hd).length then
          (createNestedObject (parseCSVLine hd) (parseCSVLine r)).toOption
        else none)) ∧
    (rest.filterMap (fun r =>
        if (parseCSVLine r).length = (parseCSVLine hd).length then
          (createNestedObject (parseCSVLine hd) (parseCSVLine r)).toOption
        else none)).length =
      rest.length -
        (rest.filter (fun r =>
          (parseCSVLine r).length != (parseCSVLine hd).length)).length := by
  refine ⟨?_, filterMap_length_eq _ _ hok⟩
  cases rest with
  | nil => exact absurd rfl hne
  | cons l2 rest2 =>
    have hred : parseCSV content =
        (match missingFields (parseCSVLine hd) with
         | [] =>
           match parseRows (parseCSVLine hd) (l2 :: rest2) with
           | .ok recs => .ok recs
           | .error _ => .error .typeError
         | m => .error (.validationError m)) := by
      unfold parseCSV
      rw [hlines]
    rw [hred, hvalid, parseRows_eq _ _ hok]

/-- Witness for the amended claim C1: a three-column header with one
matching row and one two-field row returns exactly the record of the
matching row, and the result length is two rows minus one mismatch. -/
theorem claim_C1_witness :
    parseCSV (strL "name.firstName,name.lastName,age\nJohn,Doe,30\nBad,Row") =
      .ok ([strL "John,Doe,30", strL "Bad,Row"].filterMap (fun r =>
        if (parseCSVLine r).length =
            (parseCSVLine (strL "name.firstName,name.lastName,age")).length then
          (createNestedObject (parseCSVLine (strL "name.firstName,name.lastName,age"))
            (parseCSVLine r)).toOption
        else none)) ∧
    ([strL "John,Doe,30", strL "Bad,Row"].filterMap (fun r =>
        if (parseCSVLine r).length =
            (parseCSVLine (strL "name.firstName,name.lastName,age")).length then
          (createNestedObject (parseCSVLine (strL "name.firstName,name.lastName,age"))
            (parseCSVLine r)).toOption
        else none)).length =
      [strL "John,Doe,30", strL "Bad,Row"].length -
        ([strL "John,Doe,30", strL "Bad,Row"].filter (fun r =>
          (parseCSVLine r).length !=
            (parseCSVLine (strL "name.firstName,name.lastName,age")).length)).length :=
  claim_C1_amended (strL "name.firstName,name.lastName,age\nJohn,Doe,30\nBad,Row")
    (strL "name.firstName,name.lastName,age")
    [strL "John,Doe,30", strL "Bad,Row"] rfl (by decide) rfl (by decide) (by decide)

/-- Witness for claim C2: a header missing name.lastName makes parse
fail with a ValidationError carrying exactly that path. -/
theorem claim_C2_witness :
    parseCSV (strL "name.firstName,age\nJohn,30") =
      .error (.validationError [strL "name.lastName"]) := by
  have h := (claim_C2_validation (strL "name.firstName,age\nJohn,30")
      (strL "name.firstName,age") [strL "John,30"] rfl (by decide)).1.mpr (by decide)
  exact h

/-- Claim C3: parse raises the FormatError exactly when fewer than two
lines remain after discarding lines that are empty once trimmed; in
particular a header-only input fails. -/
theorem claim_C3_format_error (content : Str) :
    parseCSV content = .error .formatError ↔ (nonEmptyLines content).length < 2 := by
  unfold parseCSV
  cases h : nonEmptyLines content with
  | nil => simp
  | cons hd rest =>
    cases rest with
    | nil => simp
    | cons l2 rest2 =>
      have hlt : ¬ ((l2 :: rest2).length + 1 < 2) := by
        simp only [List.length_cons]
        omega
      simp only [List.length_cons] at hlt
      simp only [List.length_cons, hlt, iff_false]
      intro hEq
      revert hEq
      split
      · split <;> simp
      · simp
